import Mathlib

/-!
Verification of the progress/memory subsystem of the student-coach Q&A
repository (`src/memory.py`, class `JsonMemory`).

The Python code is shallowly embedded:
* the persisted JSON document is modelled by the inductive `Json`;
* the constructor's repair-on-load step (`JsonMemory.__init__`) is the pure
  function `initRepair : Option Json → Json` (a `none` input stands for a
  missing file or a file whose contents raise in `json.loads`);
* the well-typed document the rest of the class manipulates is the structure
  `Doc` (lists for `sessions`/`attempts`, an insertion-ordered association
  list for the `questions` mapping, mirroring Python's ordered `dict`);
* each method becomes a pure function from a `Doc` (the read) to its result,
  returning the new `Doc` where the method writes; `datetime.utcnow()` is an
  explicit timestamp argument; Python `int(x)` conversion failure is an
  `Except.error`;
* Python float arithmetic on these values (averages of machine integers) is
  modelled exactly with `ℚ`, and Python's `round` (banker's rounding,
  ties-to-even) as `pyRound : ℚ → ℤ`.
-/

/-- JSON values, as produced by `json.loads`.  Objects keep key order
(Python dicts preserve insertion order) and have unique keys. -/
inductive Json : Type
  | null : Json
  | bool (b : Bool) : Json
  | num (q : ℚ) : Json
  | str (s : String) : Json
  | arr (xs : List Json) : Json
  | obj (kvs : List (String × Json)) : Json

namespace Json

/-- `d[k]` lookup on an object's key-value list (first binding wins,
as in a Python dict where keys are unique). -/
def lookup (kvs : List (String × Json)) (k : String) : Option Json :=
  match kvs with
  | [] => none
  | (k', v) :: rest => if k' = k then some v else lookup rest k

/-- `d[k] = v` on an object's key-value list: replace the first binding in
place (Python dicts keep the original position on reassignment), append at
the end when the key is absent. -/
def setKey (kvs : List (String × Json)) (k : String) (v : Json) :
    List (String × Json) :=
  match kvs with
  | [] => [(k, v)]
  | (k', v') :: rest =>
      if k' = k then (k', v) :: rest else (k', v') :: setKey rest k v

/-- Python `isinstance(x, list)`. -/
def isList : Json → Bool
  | arr _ => true
  | _ => false

/-- Python `isinstance(x, dict)`. -/
def isDict : Json → Bool
  | obj _ => true
  | _ => false

end Json

/-- The canonical empty document `{"sessions": [], "attempts": [],
"questions": {}}` used by `JsonMemory.__init__`. -/
def canonicalEmpty : Json :=
  .obj [("sessions", .arr []), ("attempts", .arr []), ("questions", .obj [])]

/-- One key-repair step of `JsonMemory.__init__`: if `k` is absent or its
value fails the container test `ok`, overwrite it with `empty`. -/
def repairKey (kvs : List (String × Json)) (k : String) (ok : Json → Bool)
    (empty : Json) : List (String × Json) :=
  match Json.lookup kvs k with
  | some v => if ok v then kvs else Json.setKey kvs k empty
  | none => Json.setKey kvs k empty

/-- `JsonMemory.__init__` (src/memory.py lines 8-34) as a pure function from
the parsed on-disk state to the document it leaves persisted.  `none` stands
for a missing file or one whose contents make `json.loads` raise: both paths
write the canonical empty shape.  A parsed value that is not a dict is
replaced wholesale by the canonical empty shape; otherwise each of the three
top-level keys that is absent or of the wrong container type is reset to its
canonical empty value, the rest of the document untouched. -/
def initRepair (parsed : Option Json) : Json :=
  match parsed with
  | none => canonicalEmpty
  | some data =>
      let kvs := match data with
        | .obj kvs => kvs
        | _ => [("sessions", Json.arr []), ("attempts", Json.arr []),
                ("questions", Json.obj [])]
      let kvs := repairKey kvs "sessions" Json.isList (.arr [])
      let kvs := repairKey kvs "attempts" Json.isList (.arr [])
      let kvs := repairKey kvs "questions" Json.isDict (.obj [])
      .obj kvs

namespace Json

theorem lookup_setKey_self (kvs : List (String × Json)) (k : String)
    (v : Json) : lookup (setKey kvs k v) k = some v := by
  induction kvs with
  | nil => simp [setKey, lookup]
  | cons hd tl ih =>
      obtain ⟨k', v'⟩ := hd
      by_cases h : k' = k <;> simp [setKey, lookup, h, ih]

theorem lookup_setKey_other (kvs : List (String × Json)) (k k' : String)
    (v : Json) (hne : k' ≠ k) :
    lookup (setKey kvs k v) k' = lookup kvs k' := by
  induction kvs with
  | nil => simp [setKey, lookup, Ne.symm hne]
  | cons hd tl ih =>
      obtain ⟨k₀, v₀⟩ := hd
      by_cases h : k₀ = k
      · subst h
        simp [setKey, lookup, Ne.symm hne]
      · simp [setKey, lookup, h, ih]

theorem lookup_repairKey_self (kvs : List (String × Json)) (k : String)
    (ok : Json → Bool) (empty : Json) :
    (∃ v, lookup (repairKey kvs k ok empty) k = some v ∧
      (ok v = true ∨ v = empty)) := by
  unfold repairKey
  cases hlk : lookup kvs k with
  | none => exact ⟨empty, lookup_setKey_self kvs k empty, Or.inr rfl⟩
  | some v =>
      by_cases hok : ok v = true
      · exact ⟨v, by simp [hok, hlk], Or.inl hok⟩
      · refine ⟨empty, ?_, Or.inr rfl⟩
        simp [hok, lookup_setKey_self]

theorem lookup_repairKey_other (kvs : List (String × Json)) (k k' : String)
    (ok : Json → Bool) (empty : Json) (hne : k' ≠ k) :
    lookup (repairKey kvs k ok empty) k' = lookup kvs k' := by
  unfold repairKey
  cases hlk : lookup kvs k with
  | none => exact lookup_setKey_other kvs k k' empty hne
  | some v =>
      by_cases hok : ok v = true
      · simp [hok]
      · simp [hok, lookup_setKey_other kvs k k' empty hne]

theorem lookup_repairKey_preserved (kvs : List (String × Json)) (k : String)
    (ok : Json → Bool) (empty : Json) (v : Json)
    (hv : lookup kvs k = some v) (hok : ok v = true) :
    lookup (repairKey kvs k ok empty) k = some v := by
  unfold repairKey
  simp [hv, hok]

theorem lookup_repairKey_filled (kvs : List (String × Json)) (k : String)
    (ok : Json → Bool) (empty : Json) (h : lookup kvs k = none) :
    lookup (repairKey kvs k ok empty) k = some empty := by
  unfold repairKey
  rw [h]
  exact lookup_setKey_self kvs k empty

theorem lookup_repairKey_replaced (kvs : List (String × Json)) (k : String)
    (ok : Json → Bool) (empty : Json) (v : Json)
    (hv : lookup kvs k = some v) (hok : ok v = false) :
    lookup (repairKey kvs k ok empty) k = some empty := by
  unfold repairKey
  rw [hv]
  simp [hok, lookup_setKey_self]

theorem isList_iff (v : Json) : isList v = true ↔ ∃ xs, v = .arr xs := by
  cases v <;> simp [isList]

theorem isDict_iff (v : Json) : isDict v = true ↔ ∃ kvs, v = .obj kvs := by
  cases v <;> simp [isDict]

end Json

/-- The key-value list `initRepair` produces (it always returns an object). -/
def initRepairKvs (parsed : Option Json) : List (String × Json) :=
  match parsed with
  | none => [("sessions", Json.arr []), ("attempts", Json.arr []),
             ("questions", Json.obj [])]
  | some data =>
      let kvs := match data with
        | .obj kvs => kvs
        | _ => [("sessions", Json.arr []), ("attempts", Json.arr []),
                ("questions", Json.obj [])]
      let kvs := repairKey kvs "sessions" Json.isList (.arr [])
      let kvs := repairKey kvs "attempts" Json.isList (.arr [])
      repairKey kvs "questions" Json.isDict (.obj [])

theorem initRepair_eq_obj (parsed : Option Json) :
    initRepair parsed = .obj (initRepairKvs parsed) := by
  cases parsed with
  | none => rfl
  | some data => cases data <;> rfl

theorem initRepairKvs_sessions (parsed : Option Json) :
    ∃ xs, Json.lookup (initRepairKvs parsed) "sessions" = some (.arr xs) := by
  cases parsed with
  | none => exact ⟨[], rfl⟩
  | some data =>
      unfold initRepairKvs
      set kvs₀ : List (String × Json) := match data with
        | .obj kvs => kvs
        | _ => [("sessions", Json.arr []), ("attempts", Json.arr []),
                ("questions", Json.obj [])] with hkvs₀
      obtain ⟨v, hv, hcase⟩ :=
        Json.lookup_repairKey_self kvs₀ "sessions" Json.isList (.arr [])
      have hv' : Json.lookup
          (repairKey (repairKey kvs₀ "sessions" Json.isList (.arr []))
            "attempts" Json.isList (.arr [])) "sessions" = some v := by
        rw [Json.lookup_repairKey_other _ _ _ _ _ (by decide), hv]
      have hv'' : Json.lookup
          (repairKey (repairKey (repairKey kvs₀ "sessions" Json.isList
            (.arr [])) "attempts" Json.isList (.arr []))
            "questions" Json.isDict (.obj [])) "sessions" = some v := by
        rw [Json.lookup_repairKey_other _ _ _ _ _ (by decide), hv']
      rcases hcase with hok | hemp
      · obtain ⟨xs, rfl⟩ := (Json.isList_iff v).mp hok
        exact ⟨xs, hv''⟩
      · exact ⟨[], by rw [hv'', hemp]⟩

theorem initRepairKvs_attempts (parsed : Option Json) :
    ∃ xs, Json.lookup (initRepairKvs parsed) "attempts" = some (.arr xs) := by
  cases parsed with
  | none => exact ⟨[], rfl⟩
  | some data =>
      unfold initRepairKvs
      set kvs₀ : List (String × Json) := match data with
        | .obj kvs => kvs
        | _ => [("sessions", Json.arr []), ("attempts", Json.arr []),
                ("questions", Json.obj [])] with hkvs₀
      obtain ⟨v, hv, hcase⟩ :=
        Json.lookup_repairKey_self (repairKey kvs₀ "sessions" Json.isList
          (.arr [])) "attempts" Json.isList (.arr [])
      have hv' : Json.lookup
          (repairKey (repairKey (repairKey kvs₀ "sessions" Json.isList
            (.arr [])) "attempts" Json.isList (.arr []))
            "questions" Json.isDict (.obj [])) "attempts" = some v := by
        rw [Json.lookup_repairKey_other _ _ _ _ _ (by decide), hv]
      rcases hcase with hok | hemp
      · obtain ⟨xs, rfl⟩ := (Json.isList_iff v).mp hok
        exact ⟨xs, hv'⟩
      · exact ⟨[], by rw [hv', hemp]⟩

theorem initRepairKvs_questions (parsed : Option Json) :
    ∃ kvs, Json.lookup (initRepairKvs parsed) "questions" =
      some (.obj kvs) := by
  cases parsed with
  | none => exact ⟨[], rfl⟩
  | some data =>
      unfold initRepairKvs
      obtain ⟨v, hv, hcase⟩ :=
        Json.lookup_repairKey_self _ "questions" Json.isDict (.obj [])
      rcases hcase with hok | hemp
      · obtain ⟨kvs, rfl⟩ := (Json.isDict_iff v).mp hok
        exact ⟨kvs, hv⟩
      · exact ⟨[], by rw [hv, hemp]⟩

theorem initRepairKvs_preserves_sessions (kvs₀ : List (String × Json))
    (ss : List Json)
    (h : Json.lookup kvs₀ "sessions" = some (.arr ss)) :
    Json.lookup (initRepairKvs (some (.obj kvs₀))) "sessions" =
      some (.arr ss) := by
  unfold initRepairKvs
  rw [Json.lookup_repairKey_other _ _ _ _ _ (by decide),
    Json.lookup_repairKey_other _ _ _ _ _ (by decide)]
  exact Json.lookup_repairKey_preserved _ _ _ _ _ h rfl

theorem initRepairKvs_preserves_attempts (kvs₀ : List (String × Json))
    (xs : List Json)
    (h : Json.lookup kvs₀ "attempts" = some (.arr xs)) :
    Json.lookup (initRepairKvs (some (.obj kvs₀))) "attempts" =
      some (.arr xs) := by
  unfold initRepairKvs
  rw [Json.lookup_repairKey_other _ _ _ _ _ (by decide)]
  exact Json.lookup_repairKey_preserved _ _ _ _ _
    (by rw [Json.lookup_repairKey_other _ _ _ _ _ (by decide)]; exact h) rfl

theorem initRepairKvs_preserves_questions (kvs₀ : List (String × Json))
    (qs : List (String × Json))
    (h : Json.lookup kvs₀ "questions" = some (.obj qs)) :
    Json.lookup (initRepairKvs (some (.obj kvs₀))) "questions" =
      some (.obj qs) := by
  unfold initRepairKvs
  exact Json.lookup_repairKey_preserved _ _ _ _ _
    (by rw [Json.lookup_repairKey_other _ _ _ _ _ (by decide),
      Json.lookup_repairKey_other _ _ _ _ _ (by decide)]; exact h) rfl

theorem initRepairKvs_sessions_canonical (kvs₀ : List (String × Json))
    (h : Json.lookup kvs₀ "sessions" = none ∨
      ∃ v, Json.lookup kvs₀ "sessions" = some v ∧ Json.isList v = false) :
    Json.lookup (initRepairKvs (some (.obj kvs₀))) "sessions" =
      some (.arr []) := by
  unfold initRepairKvs
  rw [Json.lookup_repairKey_other _ _ _ _ _ (by decide),
    Json.lookup_repairKey_other _ _ _ _ _ (by decide)]
  rcases h with h | ⟨v, hv, hok⟩
  · exact Json.lookup_repairKey_filled _ _ _ _ h
  · exact Json.lookup_repairKey_replaced _ _ _ _ v hv hok

theorem initRepairKvs_attempts_canonical (kvs₀ : List (String × Json))
    (h : Json.lookup kvs₀ "attempts" = none ∨
      ∃ v, Json.lookup kvs₀ "attempts" = some v ∧ Json.isList v = false) :
    Json.lookup (initRepairKvs (some (.obj kvs₀))) "attempts" =
      some (.arr []) := by
  unfold initRepairKvs
  rw [Json.lookup_repairKey_other _ _ _ _ _ (by decide)]
  have hmid : Json.lookup (repairKey kvs₀ "sessions" Json.isList (.arr []))
      "attempts" = Json.lookup kvs₀ "attempts" :=
    Json.lookup_repairKey_other _ _ _ _ _ (by decide)
  rcases h with h | ⟨v, hv, hok⟩
  · exact Json.lookup_repairKey_filled _ _ _ _ (hmid.trans h)
  · exact Json.lookup_repairKey_replaced _ _ _ _ v (hmid.trans hv) hok

theorem initRepairKvs_questions_canonical (kvs₀ : List (String × Json))
    (h : Json.lookup kvs₀ "questions" = none ∨
      ∃ v, Json.lookup kvs₀ "questions" = some v ∧ Json.isDict v = false) :
    Json.lookup (initRepairKvs (some (.obj kvs₀))) "questions" =
      some (.obj []) := by
  unfold initRepairKvs
  have hmid : Json.lookup (repairKey (repairKey kvs₀ "sessions" Json.isList
      (.arr [])) "attempts" Json.isList (.arr [])) "questions" =
      Json.lookup kvs₀ "questions" := by
    rw [Json.lookup_repairKey_other _ _ _ _ _ (by decide),
      Json.lookup_repairKey_other _ _ _ _ _ (by decide)]
  rcases h with h | ⟨v, hv, hok⟩
  · exact Json.lookup_repairKey_filled _ _ _ _ (hmid.trans h)
  · exact Json.lookup_repairKey_replaced _ _ _ _ v (hmid.trans hv) hok

/-- C2: Constructing the store over a missing, empty, or schema-invalid
persisted file never raises (the embedding `initRepair` is a total
function), and the persisted result is always an object whose three
top-level keys `sessions`/`attempts`/`questions` hold, respectively, an
array, an array, and an object.  Specifically: a missing or unparseable
file yields exactly the canonical empty shape; a parsed document that is
not a dict yields the three canonical empty values `[]`/`[]`/`{}`; and in
a dict document each of the three keys that is absent or of the wrong
container type is replaced by its canonical empty value (`[]`, `[]`, `{}`
respectively), while each key that is already well-formed keeps exactly
its previous value. -/
theorem init_repairs_and_preserves (parsed : Option Json) :
    (initRepair parsed = .obj (initRepairKvs parsed)) ∧
    (∃ xs, Json.lookup (initRepairKvs parsed) "sessions" =
        some (.arr xs)) ∧
    (∃ xs, Json.lookup (initRepairKvs parsed) "attempts" =
        some (.arr xs)) ∧
    (∃ qs, Json.lookup (initRepairKvs parsed) "questions" =
        some (.obj qs)) ∧
    (parsed = none → initRepair parsed = canonicalEmpty) ∧
    (∀ j, parsed = some j → Json.isDict j = false →
      Json.lookup (initRepairKvs parsed) "sessions" = some (.arr []) ∧
      Json.lookup (initRepairKvs parsed) "attempts" = some (.arr []) ∧
      Json.lookup (initRepairKvs parsed) "questions" = some (.obj [])) ∧
    (∀ kvs₀, parsed = some (.obj kvs₀) →
      ((Json.lookup kvs₀ "sessions" = none ∨
          ∃ v, Json.lookup kvs₀ "sessions" = some v ∧
            Json.isList v = false) →
        Json.lookup (initRepairKvs parsed) "sessions" = some (.arr [])) ∧
      ((Json.lookup kvs₀ "attempts" = none ∨
          ∃ v, Json.lookup kvs₀ "attempts" = some v ∧
            Json.isList v = false) →
        Json.lookup (initRepairKvs parsed) "attempts" = some (.arr [])) ∧
      ((Json.lookup kvs₀ "questions" = none ∨
          ∃ v, Json.lookup kvs₀ "questions" = some v ∧
            Json.isDict v = false) →
        Json.lookup (initRepairKvs parsed) "questions" = some (.obj [])) ∧
      (∀ ss, Json.lookup kvs₀ "sessions" = some (.arr ss) →
        Json.lookup (initRepairKvs parsed) "sessions" = some (.arr ss)) ∧
      (∀ xs, Json.lookup kvs₀ "attempts" = some (.arr xs) →
        Json.lookup (initRepairKvs parsed) "attempts" = some (.arr xs)) ∧
      (∀ qs, Json.lookup kvs₀ "questions" = some (.obj qs) →
        Json.lookup (initRepairKvs parsed) "questions" =
          some (.obj qs))) := by
  refine ⟨initRepair_eq_obj parsed, initRepairKvs_sessions parsed,
    initRepairKvs_attempts parsed, initRepairKvs_questions parsed,
    ?_, ?_, ?_⟩
  · rintro rfl
    rfl
  · rintro j rfl hd
    cases j with
    | obj kvs => simp [Json.isDict] at hd
    | null => exact ⟨rfl, rfl, rfl⟩
    | bool b => exact ⟨rfl, rfl, rfl⟩
    | num q => exact ⟨rfl, rfl, rfl⟩
    | str s => exact ⟨rfl, rfl, rfl⟩
    | arr xs => exact ⟨rfl, rfl, rfl⟩
  · rintro kvs₀ rfl
    exact ⟨initRepairKvs_sessions_canonical kvs₀,
      initRepairKvs_attempts_canonical kvs₀,
      initRepairKvs_questions_canonical kvs₀,
      fun ss h => initRepairKvs_preserves_sessions kvs₀ ss h,
      fun xs h => initRepairKvs_preserves_attempts kvs₀ xs h,
      fun qs h => initRepairKvs_preserves_questions kvs₀ qs h⟩

/-- Witness for C2 at a concrete schema-invalid input: a document whose
`sessions` is well-formed (and is preserved verbatim), whose `attempts` is
a string (wrong container type, replaced by the canonical empty `[]`), and
whose `questions` key is absent (filled in as the canonical empty `{}`);
all three conclusions obtained from the theorem. -/
theorem init_repairs_and_preserves_witness :
    Json.lookup (initRepairKvs (some (.obj
        [("sessions", .arr [.num 5]), ("attempts", .str "oops")])))
      "sessions" = some (.arr [.num 5]) ∧
    Json.lookup (initRepairKvs (some (.obj
        [("sessions", .arr [.num 5]), ("attempts", .str "oops")])))
      "attempts" = some (.arr []) ∧
    Json.lookup (initRepairKvs (some (.obj
        [("sessions", .arr [.num 5]), ("attempts", .str "oops")])))
      "questions" = some (.obj []) := by
  refine ⟨((init_repairs_and_preserves (some (.obj
      [("sessions", .arr [.num 5]), ("attempts", .str "oops")]))).2.2.2.2.2.2
      _ rfl).2.2.2.1 [.num 5] rfl,
    ((init_repairs_and_preserves (some (.obj
      [("sessions", .arr [.num 5]), ("attempts", .str "oops")]))).2.2.2.2.2.2
      _ rfl).2.1 (Or.inr ⟨.str "oops", rfl, rfl⟩),
    ((init_repairs_and_preserves (some (.obj
      [("sessions", .arr [.num 5]), ("attempts", .str "oops")]))).2.2.2.2.2.2
      _ rfl).2.2.1 (Or.inl rfl)⟩

/-!
## Question identity (`JsonMemory.question_id`, src/memory.py lines 55-59)

`normalized = " ".join(prompt.strip().split()).lower()` followed by
`hashlib.sha256(normalized.encode("utf-8")).hexdigest()[:16]`.

Strings are handled through their character lists.  `str.strip()` /
`str.split()` use Python's whitespace set (modelled for its ASCII members);
`str.lower()` is modelled for ASCII letters.  SHA-256 is implemented in
full over byte lists, 32-bit words being `Nat` reduced mod `2^32`.
-/

/-- Python's `str` whitespace test, ASCII members. -/
def pyIsSpace (c : Char) : Bool :=
  c = ' ' || c = '\t' || c = '\n' || c = '\r' ||
    c = Char.ofNat 11 || c = Char.ofNat 12

/-- Python `str.strip()`: remove leading and trailing whitespace. -/
def pyStrip (l : List Char) : List Char :=
  ((l.dropWhile pyIsSpace).reverse.dropWhile pyIsSpace).reverse

/-- Fuel-driven worker for `pySplit`; the fuel (initially the list length)
dominates the number of characters still to scan. -/
def pySplitAux : Nat → List Char → List (List Char)
  | 0, _ => []
  | _ + 1, [] => []
  | fuel + 1, c :: cs =>
      if pyIsSpace c then pySplitAux fuel cs
      else (c :: cs.takeWhile (fun d => !pyIsSpace d)) ::
        pySplitAux fuel (cs.dropWhile (fun d => !pyIsSpace d))

/-- Python `str.split()` with no separator: split on runs of whitespace,
dropping empty fields. -/
def pySplit (l : List Char) : List (List Char) :=
  pySplitAux l.length l

/-- `" ".join(words)` on character lists. -/
def joinSpace : List (List Char) → List Char
  | [] => []
  | [w] => w
  | w :: ws => w ++ ' ' :: joinSpace ws

/-- Python `str.lower()` on one character (ASCII letters). -/
def lowerChar (c : Char) : Char :=
  if c.toNat ≥ 65 && c.toNat ≤ 90 then Char.ofNat (c.toNat + 32) else c

/-- The normalized prompt:
`" ".join(prompt.strip().split()).lower()`. -/
def pyNormalize (l : List Char) : List Char :=
  (joinSpace (pySplit (pyStrip l))).map lowerChar

/-- UTF-8 encoding of one character as bytes. -/
def utf8Char (c : Char) : List Nat :=
  let n := c.toNat
  if n < 128 then [n]
  else if n < 2048 then [192 + n / 64, 128 + n % 64]
  else if n < 65536 then
    [224 + n / 4096, 128 + (n / 64) % 64, 128 + n % 64]
  else
    [240 + n / 262144, 128 + (n / 4096) % 64, 128 + (n / 64) % 64,
      128 + n % 64]

/-- `s.encode("utf-8")` on a character list. -/
def utf8Encode (l : List Char) : List Nat :=
  l.flatMap utf8Char

/-- Reduce to a 32-bit word. -/
def w32 (n : Nat) : Nat := n % 4294967296

/-- 32-bit right rotation. -/
def rotr32 (k n : Nat) : Nat :=
  w32 ((n >>> k) + (n % 2 ^ k) * 2 ^ (32 - k))

/-- SHA-256 round constants (the standard 64 words, written in decimal:
the fractional parts of the cube roots of the first 64 primes). -/
def shaK : List Nat :=
  [1116352408, 1899447441, 3049323471, 3921009573, 961987163,
   1508970993, 2453635748, 2870763221, 3624381080, 310598401,
   607225278, 1426881987, 1925078388, 2162078206, 2614888103,
   3248222580, 3835390401, 4022224774, 264347078, 604807628,
   770255983, 1249150122, 1555081692, 1996064986, 2554220882,
   2821834349, 2952996808, 3210313671, 3336571891, 3584528711,
   113926993, 338241895, 666307205, 773529912, 1294757372,
   1396182291, 1695183700, 1986661051, 2177026350, 2456956037,
   2730485921, 2820302411, 3259730800, 3345764771, 3516065817,
   3600352804, 4094571909, 275423344, 430227734, 506948616,
   659060556, 883997877, 958139571, 1322822218, 1537002063,
   1747873779, 1955562222, 2024104815, 2227730452, 2361852424,
   2428436474, 2756734187, 3204031479, 3329325298]

/-- SHA-256 initial hash state (standard eight words, in decimal). -/
def shaH0 : List Nat :=
  [1779033703, 3144134277, 1013904242, 2773480762,
   1359893119, 2600822924, 528734635, 1541459225]

/-- Big-endian 64-bit byte encoding (for the padded bit length). -/
def be64 (n : Nat) : List Nat :=
  [n >>> 56 % 256, n >>> 48 % 256, n >>> 40 % 256, n >>> 32 % 256,
   n >>> 24 % 256, n >>> 16 % 256, n >>> 8 % 256, n % 256]

/-- Big-endian 32-bit byte encoding of one hash word. -/
def be32 (n : Nat) : List Nat :=
  [n >>> 24 % 256, n >>> 16 % 256, n >>> 8 % 256, n % 256]

/-- SHA-256 message padding: `0x80`, zeros, then the 64-bit bit length,
reaching a multiple of 64 bytes. -/
def shaPad (msg : List Nat) : List Nat :=
  msg ++ 0x80 :: List.replicate ((64 - (msg.length + 9) % 64) % 64) 0 ++
    be64 (8 * msg.length)

/-- Group bytes into big-endian 32-bit words. -/
def bytesToWords : List Nat → List Nat
  | b0 :: b1 :: b2 :: b3 :: rest =>
      (b0 * 16777216 + b1 * 65536 + b2 * 256 + b3) :: bytesToWords rest
  | _ => []

/-- Fuel-driven grouping of a word list into 16-word blocks. -/
def wordChunksAux : Nat → List Nat → List (List Nat)
  | 0, _ => []
  | _ + 1, [] => []
  | fuel + 1, x :: xs => (x :: xs.take 15) :: wordChunksAux fuel (xs.drop 15)

/-- Group a word list into 16-word blocks. -/
def wordChunks (l : List Nat) : List (List Nat) :=
  wordChunksAux l.length l

/-- One message-schedule extension step: append
`σ1(w[n-2]) + w[n-7] + σ0(w[n-15]) + w[n-16]` (mod 2^32). -/
def extendStep (ws : List Nat) : List Nat :=
  let n := ws.length
  let s0 :=
    let x := ws.getD (n - 15) 0
    rotr32 7 x ^^^ rotr32 18 x ^^^ (x >>> 3)
  let s1 :=
    let x := ws.getD (n - 2) 0
    rotr32 17 x ^^^ rotr32 19 x ^^^ (x >>> 10)
  ws ++ [w32 (s1 + ws.getD (n - 7) 0 + s0 + ws.getD (n - 16) 0)]

/-- Extend a 16-word block to the full 64-word schedule. -/
def fullSchedule (ws : List Nat) : List Nat :=
  (List.range 48).foldl (fun acc _ => extendStep acc) ws

/-- One SHA-256 compression round on the 8-word working state. -/
def shaRound (st : List Nat) (w k : Nat) : List Nat :=
  match st with
  | [a, b, c, d, e, f, g, h] =>
      let bigS1 := rotr32 6 e ^^^ rotr32 11 e ^^^ rotr32 25 e
      let ch := (e &&& f) ^^^ ((4294967295 - w32 e) &&& g)
      let temp1 := w32 (h + bigS1 + ch + k + w)
      let bigS0 := rotr32 2 a ^^^ rotr32 13 a ^^^ rotr32 22 a
      let maj := (a &&& b) ^^^ (a &&& c) ^^^ (b &&& c)
      let temp2 := w32 (bigS0 + maj)
      [w32 (temp1 + temp2), a, b, c, w32 (d + temp1), e, f, g]
  | _ => st

/-- Process one 16-word block against the running hash state. -/
def processBlock (h : List Nat) (block : List Nat) : List Nat :=
  let ws := fullSchedule block
  let st := (ws.zip shaK).foldl (fun st wk => shaRound st wk.1 wk.2) h
  (h.zip st).map (fun p => w32 (p.1 + p.2))

/-- SHA-256 of a byte list, as the 32 digest bytes. -/
def sha256 (msg : List Nat) : List Nat :=
  let blocks := wordChunks (bytesToWords (shaPad msg))
  (blocks.foldl processBlock shaH0).flatMap be32

/-- One lowercase hex digit. -/
def hexChar (n : Nat) : Char :=
  if n < 10 then Char.ofNat (48 + n) else Char.ofNat (87 + n)

/-- Lowercase hex of one byte. -/
def byteHex (b : Nat) : List Char := [hexChar (b / 16), hexChar (b % 16)]

/-- `hashlib.sha256(...).hexdigest()` of a byte list. -/
def hexDigest (bytes : List Nat) : List Char := bytes.flatMap byteHex

/-- `JsonMemory.question_id`: normalized SHA-256 of the prompt, shortened
to the first 16 hex digits. -/
def question_id (prompt : String) : String :=
  ⟨(hexDigest (sha256 (utf8Encode (pyNormalize prompt.data)))).take 16⟩

theorem lowerChar_space : lowerChar ' ' = ' ' := rfl

theorem map_lower_joinSpace (ws : List (List Char)) :
    (joinSpace ws).map lowerChar =
      joinSpace (ws.map (List.map lowerChar)) := by
  induction ws with
  | nil => rfl
  | cons w ws ih =>
      cases ws with
      | nil => rfl
      | cons w' ws' =>
          simp only [joinSpace, List.map_append, List.map_cons, List.map]
          rw [lowerChar_space, ih]
          rfl

/-- C4: `question_id` is a pure function of the normalized prompt: two
prompts that differ only in leading/trailing whitespace, in runs of internal
whitespace, or in letter case (i.e. whose whitespace-split word lists agree
once lowercased) get the same identifier. -/
theorem question_id_ws_case_invariant (p₁ p₂ : String)
    (h : (pySplit (pyStrip p₁.data)).map (List.map lowerChar) =
      (pySplit (pyStrip p₂.data)).map (List.map lowerChar)) :
    question_id p₁ = question_id p₂ := by
  have hn : pyNormalize p₁.data = pyNormalize p₂.data := by
    unfold pyNormalize
    rw [map_lower_joinSpace, map_lower_joinSpace, h]
  unfold question_id
  rw [hn]

/-- Witness for C4: two concrete prompts differing only in whitespace and
case have equal lowercased word lists and an equal question id. -/
theorem question_id_ws_case_invariant_witness :
    (pySplit (pyStrip "  Hello   World ".data)).map (List.map lowerChar) =
      (pySplit (pyStrip "hello world".data)).map (List.map lowerChar) ∧
    question_id "  Hello   World " = question_id "hello world" :=
  ⟨by decide, question_id_ws_case_invariant _ _ (by decide)⟩

/-!
## The typed document and the `JsonMemory` operations

After `__init__` the three collections have their canonical container
types, and every record the class itself writes has the fields below, so
the methods are embedded over the typed document `Doc`.  The `questions`
mapping is an insertion-ordered association list (Python dicts preserve
insertion order; keys are unique).  `datetime.utcnow()` becomes an explicit
timestamp argument, and each writing method returns the document it
persists (`Except` when it can raise first).
-/

/-- One entry of the `attempts` ledger, as written by `log_attempt`. -/
structure Attempt where
  timestamp : String
  topic : String
  question_id : String
  prompt : String
  student_answer : String
  correct : Bool
  response_ms : Option ℤ
deriving DecidableEq

/-- One aggregate record of the `questions` mapping. -/
structure QRec where
  prompt : String
  times_asked : ℕ
  last_answer : Option String
  last_correct : Option Bool
  last_timestamp : Option String
  topics : List String
  last_response_ms : Option ℤ
  avg_response_ms : Option ℤ
deriving DecidableEq

/-- One entry of the `sessions` log, as written by `log_session`. -/
structure Session where
  timestamp : String
  topic : String
  score : ℚ
  details : Json

/-- The persisted document (post-repair shape). -/
structure Doc where
  sessions : List Session
  attempts : List Attempt
  questions : List (String × QRec)

/-- Dict lookup on an insertion-ordered association list. -/
def assocLookup {β : Type} (l : List (String × β)) (k : String) : Option β :=
  match l with
  | [] => none
  | (k', v) :: rest => if k' = k then some v else assocLookup rest k

/-- Dict store `d[k] = v`: replace the first binding in place, or append at
the end when the key is absent (Python insertion-order semantics). -/
def assocSet {β : Type} (l : List (String × β)) (k : String) (v : β) :
    List (String × β) :=
  match l with
  | [] => [(k, v)]
  | (k', v') :: rest =>
      if k' = k then (k', v) :: rest else (k', v') :: assocSet rest k v

/-- Python `round`: nearest integer, ties to even (used via
`int(round(x))`, which is the identity on the integer `round` returns). -/
def pyRound (q : ℚ) : ℤ :=
  let f := ⌊q⌋
  let r := q - f
  if r < 1/2 then f
  else if 1/2 < r then f + 1
  else if f % 2 = 0 then f else f + 1

/-- A Python value passed as `response_ms` (an integer, or something else
such as a string, which `int(...)` may fail to convert). -/
inductive PyVal : Type
  | vint (n : ℤ)
  | vstr (s : String)
deriving DecidableEq

/-- Python `int(s)` on a string: optional surrounding whitespace, optional
sign, then decimal digits; anything else raises `ValueError`. -/
def pyParseInt (s : String) : Option ℤ :=
  let t := pyStrip s.data
  let core : ℤ × List Char :=
    match t with
    | '-' :: cs => (-1, cs)
    | '+' :: cs => (1, cs)
    | cs => (1, cs)
  if core.2 = [] || !core.2.all Char.isDigit then none
  else some (core.1 *
    (core.2.foldl (fun acc d => acc * 10 + (d.toNat - 48)) 0 : ℕ))

/-- Python `int(x)` conversion of a `response_ms` value. -/
def pyToInt : PyVal → Option ℤ
  | .vint n => some n
  | .vstr s => pyParseInt s

/-- `JsonMemory.log_session` (src/memory.py lines 43-52). -/
def log_session (doc : Doc) (ts topic : String) (score : ℚ)
    (details : Json) : Doc :=
  { doc with sessions := doc.sessions ++
      [{ timestamp := ts, topic := topic, score := score,
         details := details }] }

/-- The fresh aggregate record `log_attempt` seeds for a first-seen
question id. -/
def freshQRec (prompt : String) : QRec :=
  { prompt := prompt, times_asked := 0, last_answer := none,
    last_correct := none, last_timestamp := none, topics := [],
    last_response_ms := none, avg_response_ms := none }

/-- `sorted(set(topics) | {topic})`: the distinct topics in ascending
string order (insertion sort — `sorted` on distinct keys is any comparison
sort). -/
def mergeTopics (topics : List String) (topic : String) : List String :=
  List.insertionSort (fun a b : String => a ≤ b) ((topic :: topics).dedup)

/-- The successful tail of `log_attempt` (src/memory.py lines 69-121),
after `int(response_ms)` has succeeded (`ms?` is its result, `none` when
`response_ms` was `None`): append the attempt entry, then fetch-or-create
and update the question aggregate. -/
def log_attempt_go (doc : Doc) (ts topic prompt student_answer : String)
    (correct : Bool) (ms? : Option ℤ) : Doc :=
  let qid := question_id prompt
  let attempt_entry : Attempt :=
    { timestamp := ts, topic := topic, question_id := qid, prompt := prompt,
      student_answer := student_answer, correct := correct,
      response_ms := ms? }
  let qrec := (assocLookup doc.questions qid).getD (freshQRec prompt)
  let prev_n := qrec.times_asked
  let qrec :=
    { qrec with
      times_asked := prev_n + 1
      last_answer := some student_answer
      last_correct := some correct
      last_timestamp := some ts
      topics := mergeTopics qrec.topics topic }
  let qrec :=
    match ms? with
    | none => qrec
    | some ms =>
        let prev_avg := qrec.avg_response_ms
        let qrec := { qrec with last_response_ms := some ms }
        match prev_avg with
        | some pa =>
            if prev_n > 0 then
              let newAvg : ℤ :=
                pyRound (((pa * prev_n + ms : ℤ) : ℚ) / ((prev_n + 1 : ℕ) : ℚ))
              { qrec with avg_response_ms := some newAvg }
            else { qrec with avg_response_ms := some ms }
        | none => { qrec with avg_response_ms := some ms }
  { doc with
    attempts := doc.attempts ++ [attempt_entry]
    questions := assocSet doc.questions qid qrec }

/-- `JsonMemory.log_attempt` (src/memory.py lines 61-121).  The
`int(response_ms)` conversion at line 85 runs before anything is written;
if it raises, the error propagates and the document is left untouched. -/
def log_attempt (doc : Doc) (ts topic prompt student_answer : String)
    (correct : Bool) (response_ms : Option PyVal) : Except String Doc :=
  match response_ms with
  | some v =>
      match pyToInt v with
      | none => .error "int() conversion failed for response_ms"
      | some ms =>
          .ok (log_attempt_go doc ts topic prompt student_answer correct
            (some ms))
  | none =>
      .ok (log_attempt_go doc ts topic prompt student_answer correct none)

/-- The per-record topic filter of `get_excluded_prompts`. -/
def topic_match (topic? : Option String) (rec : QRec) : Bool :=
  match topic? with
  | none => true
  | some t => rec.topics.contains t

/-- `JsonMemory.get_excluded_prompts` (src/memory.py lines 123-137). -/
def get_excluded_prompts (doc : Doc) (mode : String)
    (topic? : Option String) : List String :=
  if mode = "correct" then
    (doc.questions.filter (fun kv =>
      kv.2.last_correct == some true && topic_match topic? kv.2)).map
      (fun kv => kv.2.prompt)
  else
    (doc.questions.filter (fun kv => topic_match topic? kv.2)).map
      (fun kv => kv.2.prompt)

/-- `JsonMemory.get_topic_accuracy` (src/memory.py lines 140-159).  In the
typed document every session score is a number, so the `float(...)`
conversion in the source never raises and `ratios` collects every session
for the topic. -/
def get_topic_accuracy (doc : Doc) (topic : String) (default : ℚ) : ℚ :=
  let attempts := doc.attempts.filter (fun a => a.topic == topic)
  if attempts ≠ [] then
    let total := attempts.length
    let correct := (attempts.filter (fun a => a.correct)).length
    if total ≠ 0 then (correct : ℚ) / (total : ℚ) else default
  else
    let sessions := doc.sessions.filter (fun s => s.topic == topic)
    let ratios := sessions.map (fun s => s.score / 100)
    if ratios ≠ [] then ratios.sum / (ratios.length : ℚ)
    else default

/-- `JsonMemory.get_adaptive_difficulty` (src/memory.py lines 161-168). -/
def get_adaptive_difficulty (doc : Doc) (topic : String) : String :=
  let acc := get_topic_accuracy doc topic (7/10)
  if acc < 1/2 then "easy"
  else if acc < 4/5 then "medium"
  else "hard"

/-- Per-question running tallies of `get_frequently_missed`. -/
structure QStat where
  prompt : String
  attempts : ℕ
  correct : ℕ
  incorrect : ℕ
  sum_ms : ℤ
  ms_count : ℕ
deriving DecidableEq

/-- One record returned by `get_frequently_missed`. -/
structure MissedItem where
  prompt : String
  attempts : ℕ
  correct : ℕ
  incorrect : ℕ
  error_rate : ℚ
  avg_response_ms : Option ℤ
deriving DecidableEq

/-- The zeroed tallies `setdefault` seeds for a question id. -/
def freshQStat (prompt : String) : QStat :=
  { prompt := prompt, attempts := 0, correct := 0, incorrect := 0,
    sum_ms := 0, ms_count := 0 }

/-- The per-attempt tally update inside the loop of
`get_frequently_missed`. -/
def bumpStat (a : Attempt) (st : QStat) : QStat :=
  let st := { st with attempts := st.attempts + 1 }
  let st :=
    if a.correct then { st with correct := st.correct + 1 }
    else { st with incorrect := st.incorrect + 1 }
  match a.response_ms with
  | some ms =>
      { st with
        sum_ms := st.sum_ms + ms
        ms_count := st.ms_count + 1 }
  | none => st

/-- One loop iteration of `get_frequently_missed`: skip entries whose
question id is falsy, otherwise `setdefault` and tally. -/
def statUpdate (stats : List (String × QStat)) (a : Attempt) :
    List (String × QStat) :=
  if a.question_id = "" then stats
  else
    let st := (assocLookup stats a.question_id).getD (freshQStat a.prompt)
    assocSet stats a.question_id (bumpStat a st)

/-- Build one output record from final tallies (`avg_response_ms` is
`int(round(sum_ms / ms_count))` when any timing was seen). -/
def mkMissedItem (st : QStat) : MissedItem :=
  { prompt := st.prompt, attempts := st.attempts, correct := st.correct,
    incorrect := st.incorrect,
    error_rate := (st.incorrect : ℚ) / (st.attempts : ℚ),
    avg_response_ms :=
      if st.ms_count > 0 then
        some (pyRound ((st.sum_ms : ℚ) / (st.ms_count : ℚ)))
      else none }

/-- The three-level sort key `(error_rate, attempts, avg_response_ms or
0)`. -/
def missedKey (x : MissedItem) : ℚ × ℕ × ℤ :=
  (x.error_rate, x.attempts, x.avg_response_ms.getD 0)

/-- Lexicographic `≤` on sort keys. -/
def keyLe (p q : ℚ × ℕ × ℤ) : Bool :=
  decide (p.1 < q.1 ∨ (p.1 = q.1 ∧ (p.2.1 < q.2.1 ∨
    (p.2.1 = q.2.1 ∧ p.2.2 ≤ q.2.2))))

/-- The descending comparison `sort(key=..., reverse=True)` induces:
`a` may come before `b` iff `b`'s key is at most `a`'s. -/
def missedLe (a b : MissedItem) : Bool := keyLe (missedKey b) (missedKey a)

/-- The sort order of `get_frequently_missed` as a relation.  Python's
`list.sort` is stable, and a stable sort with respect to this total
preorder has a unique result, so the (stable) insertion sort below yields
exactly the source's output sequence. -/
def missedRel (a b : MissedItem) : Prop := missedLe a b = true

instance : DecidableRel missedRel :=
  fun _ _ => inferInstanceAs (Decidable (_ = true))

/-- `JsonMemory.get_frequently_missed` (src/memory.py lines 171-209). -/
def get_frequently_missed (doc : Doc) (topic : String)
    (min_attempts : ℕ) (limit : ℕ) : List MissedItem :=
  let attempts := doc.attempts.filter (fun a => a.topic == topic)
  if attempts.isEmpty then []
  else
    let stats := attempts.foldl statUpdate []
    let items := (stats.filter (fun kv =>
      decide (min_attempts ≤ kv.2.attempts) &&
        decide (kv.2.incorrect ≠ 0))).map (fun kv => mkMissedItem kv.2)
    (List.insertionSort missedRel items).take limit

/-!
## Theorems about the operations
-/

/-- C10: every `mode` other than `"correct"` takes the default branch of
`get_excluded_prompts` and so behaves exactly like `mode = "all"`, for
every store state and topic filter. -/
theorem get_excluded_prompts_default_is_all (doc : Doc) (mode : String)
    (topic? : Option String) (h : mode ≠ "correct") :
    get_excluded_prompts doc mode topic? =
      get_excluded_prompts doc "all" topic? := by
  unfold get_excluded_prompts
  rw [if_neg h, if_neg (by decide)]

/-- Witness for C10 at a concrete unrecognized mode and store. -/
theorem get_excluded_prompts_default_is_all_witness :
    ("banana" : String) ≠ "correct" ∧
    get_excluded_prompts
      ⟨[], [], [("q1", { freshQRec "P" with last_correct := some true })]⟩
      "banana" none =
    get_excluded_prompts
      ⟨[], [], [("q1", { freshQRec "P" with last_correct := some true })]⟩
      "all" none :=
  ⟨by decide,
    get_excluded_prompts_default_is_all
      ⟨[], [], [("q1", { freshQRec "P" with last_correct := some true })]⟩
      "banana" none (by decide)⟩

/-- C7: for every store state and topic filter, every prompt returned in
mode `"correct"` is also returned in mode `"all"` (the `"correct"` branch
filters the same question index by a strictly stronger condition). -/
theorem excluded_correct_subset_all (doc : Doc) (topic? : Option String)
    (p : String) (hp : p ∈ get_excluded_prompts doc "correct" topic?) :
    p ∈ get_excluded_prompts doc "all" topic? := by
  unfold get_excluded_prompts at hp ⊢
  rw [if_pos rfl] at hp
  rw [if_neg (by decide)]
  simp only [List.mem_map, List.mem_filter] at hp ⊢
  obtain ⟨kv, ⟨hmem, hcond⟩, hp⟩ := hp
  rw [Bool.and_eq_true] at hcond
  exact ⟨kv, ⟨hmem, hcond.2⟩, hp⟩

/-- Witness for C7: a store with one correctly-answered question; its
prompt is in the `"correct"` list and, by the theorem, in the `"all"`
list. -/
theorem excluded_correct_subset_all_witness :
    "P" ∈ get_excluded_prompts
      ⟨[], [], [("q1", { freshQRec "P" with last_correct := some true })]⟩
      "correct" none ∧
    "P" ∈ get_excluded_prompts
      ⟨[], [], [("q1", { freshQRec "P" with last_correct := some true })]⟩
      "all" none :=
  ⟨by decide,
    excluded_correct_subset_all
      ⟨[], [], [("q1", { freshQRec "P" with last_correct := some true })]⟩
      none "P" (by decide)⟩

theorem log_attempt_some_eq (doc : Doc)
    (ts topic prompt student_answer : String) (correct : Bool) (v : PyVal) :
    log_attempt doc ts topic prompt student_answer correct (some v) =
      match pyToInt v with
      | none => .error "int() conversion failed for response_ms"
      | some ms =>
          .ok (log_attempt_go doc ts topic prompt student_answer correct
            (some ms)) := rfl

/-- C8: when `int(response_ms)` cannot convert the supplied value,
`log_attempt` raises to the caller: the embedding returns `Except.error`
(the conversion at the attempt-entry build precedes the write), so no new
document is produced and the persisted document is the unchanged input. -/
theorem log_attempt_invalid_ms_raises (doc : Doc)
    (ts topic prompt student_answer : String) (correct : Bool) (v : PyVal)
    (h : pyToInt v = none) :
    log_attempt doc ts topic prompt student_answer correct (some v) =
      .error "int() conversion failed for response_ms" ∧
    ∀ d' : Doc, log_attempt doc ts topic prompt student_answer correct
      (some v) ≠ .ok d' := by
  rw [log_attempt_some_eq, h]
  exact ⟨rfl, fun d' hne => Except.noConfusion hne⟩

/-- Witness for C8: `int("not a number")` fails, so the call errors out on
a concrete store. -/
theorem log_attempt_invalid_ms_raises_witness :
    pyToInt (.vstr "not a number") = none ∧
    log_attempt ⟨[], [], []⟩ "t0" "Topic" "P" "ans" true
      (some (.vstr "not a number")) =
      .error "int() conversion failed for response_ms" :=
  ⟨by decide,
    (log_attempt_invalid_ms_raises ⟨[], [], []⟩ "t0" "Topic" "P" "ans" true
      (.vstr "not a number") (by decide)).1⟩

/-- C9: a successful `log_attempt` appends exactly one attempt record at
the end of the ledger and leaves every prior attempt and the whole
`sessions` collection unchanged; `log_session`, the only other writer,
never touches the ledger (the read-only queries return no document). -/
theorem log_attempt_appends_exactly_one (doc : Doc)
    (ts topic prompt student_answer : String) (correct : Bool)
    (response_ms : Option PyVal) (d' : Doc)
    (ts₂ topic₂ : String) (score : ℚ) (details : Json)
    (h : log_attempt doc ts topic prompt student_answer correct
      response_ms = .ok d') :
    (∃ e : Attempt, d'.attempts = doc.attempts ++ [e]) ∧
    d'.sessions = doc.sessions ∧
    (log_session doc ts₂ topic₂ score details).attempts = doc.attempts := by
  have hgo : ∃ ms?, d' = log_attempt_go doc ts topic prompt student_answer
      correct ms? := by
    cases response_ms with
    | none =>
        refine ⟨none, ?_⟩
        unfold log_attempt at h
        exact (Except.ok.inj h).symm
    | some v =>
        rw [log_attempt_some_eq] at h
        cases hi : pyToInt v with
        | none => rw [hi] at h; exact Except.noConfusion h
        | some ms =>
            rw [hi] at h
            exact ⟨some ms, (Except.ok.inj h).symm⟩
  obtain ⟨ms?, rfl⟩ := hgo
  exact ⟨⟨_, rfl⟩, rfl, rfl⟩

theorem keyLe_total (p q : ℚ × ℕ × ℤ) :
    keyLe p q = true ∨ keyLe q p = true := by
  simp only [keyLe, decide_eq_true_eq]
  rcases lt_trichotomy p.1 q.1 with h | h | h
  · exact Or.inl (Or.inl h)
  · rcases lt_trichotomy p.2.1 q.2.1 with h2 | h2 | h2
    · exact Or.inl (Or.inr ⟨h, Or.inl h2⟩)
    · rcases le_total p.2.2 q.2.2 with h3 | h3
      · exact Or.inl (Or.inr ⟨h, Or.inr ⟨h2, h3⟩⟩)
      · exact Or.inr (Or.inr ⟨h.symm, Or.inr ⟨h2.symm, h3⟩⟩)
    · exact Or.inr (Or.inr ⟨h.symm, Or.inl h2⟩)
  · exact Or.inr (Or.inl h)

theorem keyLe_trans (p q r : ℚ × ℕ × ℤ) (h1 : keyLe p q = true)
    (h2 : keyLe q r = true) : keyLe p r = true := by
  simp only [keyLe, decide_eq_true_eq] at h1 h2 ⊢
  rcases h1 with h1 | ⟨e1, h1'⟩
  · rcases h2 with h2 | ⟨e2, _⟩
    · exact Or.inl (h1.trans h2)
    · exact Or.inl (by rw [← e2]; exact h1)
  · rcases h2 with h2 | ⟨e2, h2'⟩
    · exact Or.inl (by rw [e1]; exact h2)
    · refine Or.inr ⟨e1.trans e2, ?_⟩
      rcases h1' with h1' | ⟨f1, h1''⟩
      · rcases h2' with h2' | ⟨f2, _⟩
        · exact Or.inl (h1'.trans h2')
        · exact Or.inl (by rw [← f2]; exact h1')
      · rcases h2' with h2' | ⟨f2, h2''⟩
        · exact Or.inl (by rw [f1]; exact h2')
        · exact Or.inr ⟨f1.trans f2, h1''.trans h2''⟩

instance : IsTrans MissedItem missedRel :=
  ⟨fun a b c h1 h2 =>
    keyLe_trans (missedKey c) (missedKey b) (missedKey a) h2 h1⟩

instance : IsTotal MissedItem missedRel :=
  ⟨fun a b =>
    (keyLe_total (missedKey b) (missedKey a)).imp (fun h => h) (fun h => h)⟩

/-- Every returned record comes from a tally that survived the
`min_attempts`/`incorrect` filter. -/
theorem mem_get_frequently_missed (doc : Doc) (topic : String)
    (min_attempts limit : ℕ) (r : MissedItem)
    (h : r ∈ get_frequently_missed doc topic min_attempts limit) :
    ∃ st : QStat,
      (decide (min_attempts ≤ st.attempts) &&
        decide (st.incorrect ≠ 0)) = true ∧ r = mkMissedItem st := by
  simp only [get_frequently_missed] at h
  split at h
  · exact absurd h (List.not_mem_nil r)
  · have h1 := List.mem_of_mem_take h
    have h2 := (List.perm_insertionSort missedRel _).mem_iff.mp h1
    rw [List.mem_map] at h2
    obtain ⟨kv, hkv, hr⟩ := h2
    rw [List.mem_filter] at hkv
    exact ⟨kv.2, hkv.2, hr.symm⟩

/-- C5: for every store state, topic, `min_attempts` and `limit`, no record
returned by `get_frequently_missed` has `incorrect == 0`, and none
aggregates fewer than `min_attempts` attempts for that topic. -/
theorem get_frequently_missed_never_unmissed (doc : Doc) (topic : String)
    (min_attempts limit : ℕ) (r : MissedItem)
    (h : r ∈ get_frequently_missed doc topic min_attempts limit) :
    r.incorrect ≠ 0 ∧ min_attempts ≤ r.attempts := by
  obtain ⟨st, hcond, rfl⟩ :=
    mem_get_frequently_missed doc topic min_attempts limit r h
  rw [Bool.and_eq_true, decide_eq_true_eq, decide_eq_true_eq] at hcond
  exact ⟨hcond.2, hcond.1⟩

/-- Store used to witness C5: one incorrect attempt on topic `Thermo`. -/
def c5doc : Doc :=
  ⟨[], [⟨"t0", "Thermo", "q1", "P", "a", false, none⟩], []⟩

/-- Witness for C5: the returned record of `c5doc` has a nonzero
`incorrect` and at least `min_attempts = 1` attempts. -/
theorem get_frequently_missed_never_unmissed_witness :
    (⟨"P", 1, 0, 1, 1, none⟩ : MissedItem) ∈
      get_frequently_missed c5doc "Thermo" 1 5 ∧
    (⟨"P", 1, 0, 1, 1, none⟩ : MissedItem).incorrect ≠ 0 ∧
    1 ≤ (⟨"P", 1, 0, 1, 1, none⟩ : MissedItem).attempts :=
  ⟨by with_unfolding_all decide,
    get_frequently_missed_never_unmissed c5doc "Thermo" 1 5
      ⟨"P", 1, 0, 1, 1, none⟩ (by with_unfolding_all decide)⟩

/-- C6: the returned sequence is sorted in descending lexicographic order
of `(error_rate, attempts, avg_response_ms or 0)`, contains at most
`limit` records, and each record's `error_rate` is `incorrect /
attempts`. -/
theorem get_frequently_missed_sorted_and_limited (doc : Doc)
    (topic : String) (min_attempts limit : ℕ) :
    List.Pairwise
      (fun a b => keyLe (missedKey b) (missedKey a) = true)
      (get_frequently_missed doc topic min_attempts limit) ∧
    (get_frequently_missed doc topic min_attempts limit).length ≤ limit ∧
    ∀ r ∈ get_frequently_missed doc topic min_attempts limit,
      r.error_rate = (r.incorrect : ℚ) / (r.attempts : ℚ) := by
  refine ⟨?_, ?_, ?_⟩
  · simp only [get_frequently_missed]
    split
    · exact List.Pairwise.nil
    · exact (List.sorted_insertionSort missedRel _).take
  · simp only [get_frequently_missed]
    split
    · simp
    · exact List.length_take_le _ _
  · intro r hr
    obtain ⟨st, _, rfl⟩ :=
      mem_get_frequently_missed doc topic min_attempts limit r hr
    rfl

/-- Store used to witness C6: two questions on topic `T`, one missed twice
out of two (error rate 1), one missed once out of two (error rate 1/2). -/
def c6doc : Doc :=
  ⟨[], [⟨"t1", "T", "q1", "P1", "a", false, none⟩,
        ⟨"t2", "T", "q1", "P1", "a", false, some 100⟩,
        ⟨"t3", "T", "q2", "P2", "a", false, none⟩,
        ⟨"t4", "T", "q2", "P2", "a", true, none⟩], []⟩

/-- Witness for C6 on `c6doc`: the sortedness and length bounds hold, and
the record for `P1` (membership checked concretely) satisfies the
error-rate identity. -/
theorem get_frequently_missed_sorted_and_limited_witness :
    List.Pairwise
      (fun a b => keyLe (missedKey b) (missedKey a) = true)
      (get_frequently_missed c6doc "T" 1 5) ∧
    (get_frequently_missed c6doc "T" 1 5).length ≤ 5 ∧
    (⟨"P1", 2, 0, 2, 1, some 100⟩ : MissedItem).error_rate =
      (((⟨"P1", 2, 0, 2, 1, some 100⟩ : MissedItem).incorrect : ℚ) /
        ((⟨"P1", 2, 0, 2, 1, some 100⟩ : MissedItem).attempts : ℚ)) :=
  ⟨(get_frequently_missed_sorted_and_limited c6doc "T" 1 5).1,
    (get_frequently_missed_sorted_and_limited c6doc "T" 1 5).2.1,
    (get_frequently_missed_sorted_and_limited c6doc "T" 1 5).2.2
      ⟨"P1", 2, 0, 2, 1, some 100⟩ (by with_unfolding_all decide)⟩

/-- The topic-accuracy computation exactly as claim C3 words it: attempts
for the topic dominate; otherwise the mean of `score / 100` over the
topic's sessions; otherwise `0.7`. -/
def claimAccuracy (doc : Doc) (topic : String) : ℚ :=
  let tAtt := doc.attempts.filter (fun a => a.topic == topic)
  if tAtt ≠ [] then
    ((tAtt.filter (fun a => a.correct)).length : ℚ) / (tAtt.length : ℚ)
  else
    let tSes := doc.sessions.filter (fun s => s.topic == topic)
    if tSes.isEmpty then 7/10
    else (tSes.map (fun s => s.score / 100)).sum / (tSes.length : ℚ)

/-- The difficulty label as claim C3 words it: `easy` below `0.5`,
`medium` below `0.8`, `hard` otherwise. -/
def claimDifficulty (doc : Doc) (topic : String) : String :=
  if claimAccuracy doc topic < 1/2 then "easy"
  else if claimAccuracy doc topic < 4/5 then "medium"
  else "hard"

theorem get_topic_accuracy_eq_claim (doc : Doc) (topic : String) :
    get_topic_accuracy doc topic (7/10) = claimAccuracy doc topic := by
  unfold get_topic_accuracy claimAccuracy
  by_cases hA : doc.attempts.filter (fun a => a.topic == topic) = []
  · by_cases hS : doc.sessions.filter (fun s => s.topic == topic) = [] <;>
      simp [hA, hS, List.isEmpty_iff]
  · have hlen : (doc.attempts.filter (fun a => a.topic == topic)).length ≠
        0 := by
      simpa [List.length_eq_zero] using hA
    simp [hA, hlen]

/-- C3: `get_adaptive_difficulty` returns exactly the label the claim
describes — accuracy is correct/total over the topic's attempts, else the
mean of `score/100` over the topic's sessions, else `0.7`; thresholds are
`< 0.5 → easy`, `< 0.8 → medium`, else `hard` — and in particular a topic
with no attempts and no sessions gets `medium`. -/
theorem get_adaptive_difficulty_matches_claim (doc : Doc)
    (topic : String) :
    get_adaptive_difficulty doc topic = claimDifficulty doc topic ∧
    (doc.attempts.filter (fun a => a.topic == topic) = [] →
      doc.sessions.filter (fun s => s.topic == topic) = [] →
      get_adaptive_difficulty doc topic = "medium") := by
  constructor
  · unfold get_adaptive_difficulty claimDifficulty
    rw [get_topic_accuracy_eq_claim]
  · intro hA hS
    unfold get_adaptive_difficulty
    rw [get_topic_accuracy_eq_claim]
    unfold claimAccuracy
    simp [hA, hS]
    norm_num

/-- Witness for C3: on the empty store every topic filter is empty and the
difficulty defaults to `medium` (accuracy 0.7). -/
theorem get_adaptive_difficulty_matches_claim_witness :
    (Doc.attempts ⟨[], [], []⟩).filter (fun a => a.topic == "Thermo") =
      [] ∧
    (Doc.sessions ⟨[], [], []⟩).filter (fun s => s.topic == "Thermo") =
      [] ∧
    get_adaptive_difficulty ⟨[], [], []⟩ "Thermo" = "medium" :=
  ⟨rfl, rfl,
    (get_adaptive_difficulty_matches_claim ⟨[], [], []⟩ "Thermo").2 rfl rfl⟩

/-- The varying arguments of one `log_attempt` call within a sequence of
calls sharing one prompt. -/
structure LogCall where
  ts : String
  topic : String
  student_answer : String
  correct : Bool
  response_ms : Option ℤ
deriving DecidableEq

/-- A sequence of successful `log_attempt` calls with the same prompt
(`log_attempt` with `some (.vint n)` or `none` always succeeds and runs
`log_attempt_go`, see `log_attempt_runs_go`). -/
def runLog (doc : Doc) (prompt : String) (calls : List LogCall) : Doc :=
  calls.foldl (fun d c =>
    log_attempt_go d c.ts c.topic prompt c.student_answer c.correct
      c.response_ms) doc

theorem log_attempt_runs_go (doc : Doc)
    (ts topic prompt student_answer : String) (correct : Bool)
    (ms? : Option ℤ) :
    log_attempt doc ts topic prompt student_answer correct
      (ms?.map PyVal.vint) =
      .ok (log_attempt_go doc ts topic prompt student_answer correct
        ms?) := by
  cases ms? <;> rfl

/-- The `(times_asked, avg_response_ms)` pair of the aggregate stored for
`qid` (`(0, none)` when no record exists yet). -/
def aggOf (doc : Doc) (qid : String) : ℕ × Option ℤ :=
  match assocLookup doc.questions qid with
  | some q => (q.times_asked, q.avg_response_ms)
  | none => (0, none)

/-- How one `log_attempt` call transforms `(times_asked, avg_response_ms)`:
the counter always increments; with a timing, the average becomes the
rounded incremental mean weighted by the old `times_asked` (not by the
number of timed entries), or the raw value when no average exists yet. -/
def aggStep (p : ℕ × Option ℤ) (ms? : Option ℤ) : ℕ × Option ℤ :=
  match ms? with
  | none => (p.1 + 1, p.2)
  | some ms =>
      match p.2 with
      | some pa =>
          if p.1 > 0 then
            (p.1 + 1, some (pyRound (((pa * p.1 + ms : ℤ) : ℚ) /
              ((p.1 + 1 : ℕ) : ℚ))))
          else (p.1 + 1, some ms)
      | none => (p.1 + 1, some ms)

theorem assocLookup_assocSet_self {β : Type} (l : List (String × β))
    (k : String) (v : β) : assocLookup (assocSet l k v) k = some v := by
  induction l with
  | nil => simp [assocSet, assocLookup]
  | cons hd tl ih =>
      obtain ⟨k', v'⟩ := hd
      by_cases h : k' = k <;> simp [assocSet, assocLookup, h, ih]

theorem aggOf_log_attempt_go (doc : Doc)
    (ts topic prompt student_answer : String) (correct : Bool)
    (ms? : Option ℤ) :
    aggOf (log_attempt_go doc ts topic prompt student_answer correct ms?)
      (question_id prompt) =
      aggStep (aggOf doc (question_id prompt)) ms? := by
  cases hq : assocLookup doc.questions (question_id prompt) with
  | none =>
      cases ms? with
      | none =>
          simp [log_attempt_go, aggOf, aggStep, hq,
            assocLookup_assocSet_self, freshQRec]
      | some ms =>
          simp [log_attempt_go, aggOf, aggStep, hq,
            assocLookup_assocSet_self, freshQRec]
  | some q =>
      cases ms? with
      | none =>
          simp [log_attempt_go, aggOf, aggStep, hq,
            assocLookup_assocSet_self]
      | some ms =>
          cases ha : q.avg_response_ms with
          | none =>
              simp [log_attempt_go, aggOf, aggStep, hq, ha,
                assocLookup_assocSet_self]
          | some pa =>
              by_cases hn : q.times_asked > 0 <;>
                simp [log_attempt_go, aggOf, aggStep, hq, ha, hn,
                  assocLookup_assocSet_self]

theorem aggOf_runLog (prompt : String) (calls : List LogCall)
    (doc : Doc) :
    aggOf (runLog doc prompt calls) (question_id prompt) =
      calls.foldl (fun p c => aggStep p c.response_ms)
        (aggOf doc (question_id prompt)) := by
  induction calls generalizing doc with
  | nil => rfl
  | cons c cs ih =>
      rw [runLog, List.foldl_cons, List.foldl_cons, ← runLog, ih,
        aggOf_log_attempt_go]

theorem aggFold_fst (calls : List LogCall) (p : ℕ × Option ℤ) :
    (calls.foldl (fun p c => aggStep p c.response_ms) p).1 =
      p.1 + calls.length := by
  induction calls generalizing p with
  | nil => simp
  | cons c cs ih =>
      rw [List.foldl_cons, ih]
      have hstep : (aggStep p c.response_ms).1 = p.1 + 1 := by
        unfold aggStep
        cases c.response_ms with
        | none => rfl
        | some ms =>
            cases p.2 with
            | none => rfl
            | some pa => by_cases h : p.1 > 0 <;> simp [h]
      rw [hstep, List.length_cons]
      omega

/-- C1 (amended): over any sequence of successful `log_attempt` calls with
the same prompt starting from the empty store, `times_asked` equals the
number of calls, and `avg_response_ms` is the left fold of the rounded
incremental update `round((prev_avg * prev_n + ms) / (prev_n + 1))` —
`prev_n` being the `times_asked` before the call, so untimed calls *do*
enter the weight — with the supplied value taken outright when no average
exists yet.  This is not, in general, the arithmetic mean of the supplied
values (see the counterexample). -/
theorem log_attempt_aggregate_fold (prompt : String)
    (calls : List LogCall) :
    aggOf (runLog ⟨[], [], []⟩ prompt calls) (question_id prompt) =
      calls.foldl (fun p c => aggStep p c.response_ms) (0, none) ∧
    (aggOf (runLog ⟨[], [], []⟩ prompt calls) (question_id prompt)).1 =
      calls.length := by
  have h := aggOf_runLog prompt calls ⟨[], [], []⟩
  have h0 : aggOf ⟨[], [], []⟩ (question_id prompt) =
      ((0 : ℕ), (none : Option ℤ)) := rfl
  rw [h0] at h
  refine ⟨h, ?_⟩
  rw [h, aggFold_fst]
  simp

/-- C1 counterexample: two `log_attempt` calls with the same prompt,
supplying `response_ms` 1 and then 2.  The stored `avg_response_ms` is the
integer 2 (`round(3/2)` with ties-to-even), but the arithmetic mean of the
supplied values is `3/2`, so `avg_response_ms` is not the arithmetic mean
of the supplied `response_ms` values. -/
theorem avg_response_not_arithmetic_mean :
    ((log_attempt ⟨[], [], []⟩ "t1" "T" "p" "a1" true
        (some (.vint 1))).bind
      (fun d => log_attempt d "t2" "T" "p" "a2" true
        (some (.vint 2)))).map (fun d => aggOf d (question_id "p")) =
      .ok (2, some 2) ∧
    ((2 : ℤ) : ℚ) ≠ ((1 : ℚ) + 2) / 2 := by
  constructor
  · with_unfolding_all rfl
  · norm_num

/-- Witness for C9: one concrete successful call appends its single entry
to the empty ledger and leaves `sessions` empty. -/
theorem log_attempt_appends_exactly_one_witness :
    log_attempt ⟨[], [], []⟩ "t0" "Topic" "P" "ans" true none =
      .ok (log_attempt_go ⟨[], [], []⟩ "t0" "Topic" "P" "ans" true none) ∧
    (∃ e : Attempt,
      (log_attempt_go ⟨[], [], []⟩ "t0" "Topic" "P" "ans" true
        none).attempts = ([] : List Attempt) ++ [e]) ∧
    (log_attempt_go ⟨[], [], []⟩ "t0" "Topic" "P" "ans" true
      none).sessions = [] :=
  ⟨rfl,
    (log_attempt_appends_exactly_one ⟨[], [], []⟩ "t0" "Topic" "P" "ans"
      true none _ "t1" "Topic" 50 Json.null rfl).1,
    (log_attempt_appends_exactly_one ⟨[], [], []⟩ "t0" "Topic" "P" "ans"
      true none _ "t1" "Topic" 50 Json.null rfl).2.1⟩

